import Mathlib

/-!
Verification development for the iMessage MCP server (src/index.js).

The data model is a shallow embedding of the SQLite `chat.db` schema used by
the server (tables `chat`, `handle`, `message`, `chat_handle_join`,
`chat_message_join`), and the operation definitions are direct translations
of the four tool implementations (`listConversations`, `searchConversations`,
`readMessages`, `getRecentMessages`) together with the timestamp helper
`getAppleTimestamp` and the request-dispatch boundary in `setupHandlers`.

JavaScript numbers are modelled as exact rationals (`ℚ`) where fractional
arithmetic occurs, and as `ℤ`/`ℕ` where the code manipulates integers.
SQL semantics are modelled faithfully: `=` against a NULL binding matches no
row, `GROUP BY` treats all NULLs as one group, `LIKE` with a
percent-wrapped needle is an ASCII-case-insensitive substring test (wildcard
characters inside the needle are not modelled; no claim exercises them), and
`IN ()` with an empty list matches no row.
-/

namespace IMsg

/-- A row of the `chat` table (the fields the server reads). -/
structure Chat where
  rowid : Nat
  display_name : Option String
  chat_identifier : String
  service_name : String
  group_id : Option String
deriving DecidableEq

/-- A row of the `handle` table. -/
structure Handle where
  rowid : Nat
  id : String
deriving DecidableEq

/-- A row of the `message` table (the fields the server reads).
`date` is the store-native timestamp: nanoseconds since 2001-01-01. -/
structure Message where
  rowid : Nat
  date : Int
  text : Option String
  is_from_me : Bool
  handle_id : Option Nat
  service : String
deriving DecidableEq

/-- A row of the `chat_handle_join` table. -/
structure ChatHandleJoin where
  chat_id : Nat
  handle_id : Nat
deriving DecidableEq

/-- A row of the `chat_message_join` table. -/
structure ChatMessageJoin where
  chat_id : Nat
  message_id : Nat
deriving DecidableEq

/-- The read-only store: the five tables the server queries. -/
structure Store where
  chats : List Chat
  handles : List Handle
  messages : List Message
  chat_handle_join : List ChatHandleJoin
  chat_message_join : List ChatMessageJoin
deriving DecidableEq

/-! ### TimeCodec (index.js lines 30-36 and 154-155) -/

/-- Seconds between 1970 and 2001 (index.js line 32). -/
def appleEpoch : Int := 978307200

/-- `getAppleTimestamp(daysBack)` (index.js lines 31-36).
`nowUnixSeconds` stands for `Math.floor(Date.now() / 1000)`; `daysBack` may
be fractional (the recent-messages caller passes `hoursBack / 24`). -/
def getAppleTimestamp (nowUnixSeconds : Int) (daysBack : ℚ) : ℚ :=
  (((nowUnixSeconds : ℚ) - (appleEpoch : ℚ)) - daysBack * 24 * 60 * 60) * 1000000000

/-- The native-to-display conversion used at index.js line 155:
`(date / 1000000000 + 978307200) * 1000`, a millisecond timestamp. -/
def toDisplayMs (t : Int) : ℚ :=
  ((t : ℚ) / 1000000000 + (appleEpoch : ℚ)) * 1000

/-- Modelled from the spec: the inverse display-to-native conversion of
section 4.1; no such function exists in src (the code only converts
native-to-display), so the round-trip direction follows the spec words. -/
def toNativeFromMs (ms : ℚ) : ℚ :=
  (ms / 1000 - (appleEpoch : ℚ)) * 1000000000

/-- The native-to-display conversion with integer truncation, the variant
the spec declares acceptable for the round trip ("integer truncation is
acceptable but must be consistent"). -/
def toDisplayMsInt (t : Nat) : Nat :=
  (t / 1000000000 + 978307200) * 1000

/-- Modelled from the spec: truncating inverse of `toDisplayMsInt`
(section 4.1); absent from src, follows the spec words. -/
def toNativeFromMsInt (ms : Nat) : Nat :=
  (ms / 1000 - 978307200) * 1000000000

/-! ### String helpers -/

/-- Lower-case an ASCII letter; other characters unchanged (the ASCII-only
case folding SQLite's default `LIKE` applies). -/
def asciiLower (c : Char) : Char :=
  if 65 ≤ c.toNat && c.toNat ≤ 90 then Char.ofNat (c.toNat + 32) else c

/-- `needle` occurs at the head of `hay`. -/
def listStartsWith : List Char → List Char → Bool
  | [], _ => true
  | _ :: _, [] => false
  | a :: as, b :: bs => a == b && listStartsWith as bs

/-- `needle` occurs contiguously somewhere in `hay`. -/
def listContainsSub : List Char → List Char → Bool
  | needle, [] => needle.isEmpty
  | needle, b :: bs => listStartsWith needle (b :: bs) || listContainsSub needle bs

/-- SQLite `column LIKE '%needle%'`: ASCII-case-insensitive substring test.
(`%`/`_` wildcards inside the needle are not modelled; no claim uses them.) -/
def likeContains (needle hay : String) : Bool :=
  listContainsSub (needle.toList.map asciiLower) (hay.toList.map asciiLower)

/-- `identifier.replace(/[^0-9+]/g, '')` (index.js line 284): keeps every
digit and every `+`, wherever it occurs. -/
def cleanNumber (s : String) : String :=
  String.mk (s.toList.filter (fun c => c.isDigit || c == '+'))

/-- `/^\d+$/.test(identifier)` (index.js line 236). -/
def isNumeric (s : String) : Bool :=
  !s.isEmpty && s.toList.all Char.isDigit

/-- `parseInt(identifier)` on an all-digit string (index.js line 240). -/
def parseIntNat (s : String) : Nat :=
  s.toList.foldl (fun a c => a * 10 + (c.toNat - 48)) 0

/-- JavaScript `a || b` on a nullable string: `null` and `""` are falsy. -/
def jsOr (a : Option String) (b : String) : String :=
  match a with
  | none => b
  | some s => if s == "" then b else s

/-! ### Identifier resolution (index.js lines 236-296) -/

/-- `db.get('SELECT ... FROM chat WHERE ROWID = ?')` (index.js lines 243-246):
the first chat row with the given rowid, if any. -/
def findChat (st : Store) (cid : Nat) : Option Chat :=
  st.chats.find? (fun c => c.rowid == cid)

/-- `db.all('SELECT ROWID FROM chat WHERE group_id = ?')` (index.js lines
253-255), with the looked-up chat's `group_id` bound as the parameter.
SQL `=` against a NULL binding matches no row, so a NULL `group_id`
resolves to the empty id set. -/
def relatedChatIds (st : Store) (gid : Option String) : List Nat :=
  (st.chats.filter (fun c =>
    match gid with
    | some g => c.group_id == some g
    | none => false)).map (fun c => c.rowid)

/-- The handle search of index.js lines 287-290: rows of `handle` whose `id`
is LIKE any of `%identifier%`, `%cleanNumber%`, `%+cleanNumber%`. -/
def matchingHandles (st : Store) (identifier : String) : List Handle :=
  st.handles.filter (fun h =>
    likeContains identifier h.id || likeContains (cleanNumber identifier) h.id ||
      likeContains ("+" ++ cleanNumber identifier) h.id)

/-! ### Message retrieval (index.js lines 259-274, 298-312, 352-369) -/

/-- A message passes the WHERE clause `m.date > ? AND m.text IS NOT NULL AND
m.text != ''` apart from the date part. -/
def hasText (m : Message) : Bool :=
  match m.text with
  | none => false
  | some t => !(t == "")

/-- The full WHERE filter on a message row: `m.date > threshold` and
non-empty text. -/
def msgKeep (threshold : ℚ) (m : Message) : Bool :=
  decide (threshold < (m.date : ℚ)) && hasText m

/-- `ORDER BY m.date DESC` as a relation on message rows. -/
def dateDesc (a b : Message) : Prop := b.date ≤ a.date

instance : DecidableRel dateDesc := fun a b => Int.decLe b.date a.date

instance : IsTotal Message dateDesc := ⟨fun a b => le_total b.date a.date⟩

instance : IsTrans Message dateDesc := ⟨fun _ _ _ h1 h2 => le_trans h2 h1⟩

/-- The join `FROM chat_message_join cmj JOIN message m ON cmj.message_id =
m.ROWID WHERE cmj.chat_id IN (chatIds)` (index.js lines 266-269): one message
row per matching join pair. -/
def convJoinRows (st : Store) (chatIds : List Nat) : List Message :=
  (st.chat_message_join.filter (fun j => chatIds.contains j.chat_id)).flatMap
    (fun j => st.messages.filter (fun m => m.rowid == j.message_id))

/-- The conversation-branch message query (index.js lines 259-274):
join, filter, `ORDER BY m.date DESC`, `LIMIT ?`. -/
def fetchConvMessages (st : Store) (chatIds : List Nat) (threshold : ℚ)
    (lim : Nat) : List Message :=
  (List.insertionSort dateDesc ((convJoinRows st chatIds).filter (msgKeep threshold))).take lim

/-- `FROM message m WHERE m.handle_id IN (handleIds)` (index.js lines
305-307); a NULL `handle_id` is in no list. -/
def contactJoinRows (st : Store) (handleIds : List Nat) : List Message :=
  st.messages.filter (fun m =>
    match m.handle_id with
    | some hid => handleIds.contains hid
    | none => false)

/-- The contact-branch message query (index.js lines 298-312). -/
def fetchContactMessages (st : Store) (handleIds : List Nat) (threshold : ℚ)
    (lim : Nat) : List Message :=
  (List.insertionSort dateDesc ((contactJoinRows st handleIds).filter (msgKeep threshold))).take lim

/-- `LEFT JOIN handle h ON m.handle_id = h.ROWID` then `h.id as sender`:
the sender identifier of a message row, NULL when there is no handle. -/
def findHandle (st : Store) (hid : Nat) : Option Handle :=
  st.handles.find? (fun h => h.rowid == hid)

def senderOf (st : Store) (m : Message) : Option String :=
  match m.handle_id with
  | some hid => (findHandle st hid).map (fun h => h.id)
  | none => none

/-- A formatted message of the read-messages output (index.js lines 323-328;
the `timestamp` column is a rendering of `m.date` and is carried by `date`
on the underlying row, so it is omitted from the projection here). -/
structure FormattedMessage where
  sender : String
  text : Option String
  service : String
deriving DecidableEq

/-- Index.js lines 323-328: `sender: m.is_from_me ? 'You' : (m.sender ||
'Unknown')` (JavaScript `||`, so an empty sender string also falls back). -/
def formatMessage (st : Store) (m : Message) : FormattedMessage :=
  { sender := if m.is_from_me then "You" else jsOr (senderOf st m) "Unknown"
    text := m.text
    service := m.service }

/-- The `conversation` metadata of the numeric branch (index.js lines
276-281): the `type` field is the literal string `'group'`. -/
structure ConvInfo where
  name : String
  type : String
  service : String
  chat_ids : List Nat
deriving DecidableEq

/-- The `conversation` metadata of the contact branch (index.js lines
314-318). -/
structure ContactInfo where
  name : String
  type : String
  handles : List String
deriving DecidableEq

inductive ReadResult where
  | conv (info : ConvInfo) (messages : List FormattedMessage)
  | contact (info : ContactInfo) (messages : List FormattedMessage)
deriving DecidableEq

/-- The message list carried by a read-messages result. -/
def readResultMessages : ReadResult → List FormattedMessage
  | ReadResult.conv _ ms => ms
  | ReadResult.contact _ ms => ms

/-- `readMessages(identifier, limit, daysBack)` (index.js lines 227-344),
up to the boundary try/catch: `Except.error` models a thrown `Error`. -/
def readMessages (st : Store) (identifier : String) (lim : Nat) (daysBack : ℚ)
    (nowUnixSeconds : Int) : Except String ReadResult :=
  let threshold := getAppleTimestamp nowUnixSeconds daysBack
  if isNumeric identifier then
    let chatId := parseIntNat identifier
    match findChat st chatId with
    | none => Except.error ("Chat not found: " ++ toString chatId)
    | some chatInfo =>
      let chatIds := relatedChatIds st chatInfo.group_id
      Except.ok (ReadResult.conv
        { name := jsOr chatInfo.display_name chatInfo.chat_identifier
          type := "group"
          service := chatInfo.service_name
          chat_ids := chatIds }
        ((fetchConvMessages st chatIds threshold lim).map (formatMessage st)))
  else
    let handles := matchingHandles st identifier
    if handles.isEmpty then
      Except.error ("Contact not found: " ++ identifier)
    else
      Except.ok (ReadResult.contact
        { name := identifier
          type := "individual"
          handles := handles.map (fun h => h.id) }
        ((fetchContactMessages st (handles.map (fun h => h.rowid)) threshold lim).map
          (formatMessage st)))

/-! ### getRecentMessages (index.js lines 346-395) -/

/-- A row of the global recent-messages query: `message m LEFT JOIN
chat_message_join cmj ON m.ROWID = cmj.message_id LEFT JOIN chat c ON
cmj.chat_id = c.ROWID` (index.js lines 361-364). -/
structure RecentRow where
  msg : Message
  chat : Option Chat
deriving DecidableEq

/-- The rows a single message contributes to the double LEFT JOIN of
index.js lines 361-364: a message with no join row (or whose join row
matches no chat) yields one row with a NULL chat; otherwise one row per
matching (join, chat) pair. -/
def recentRowsFor (st : Store) (m : Message) : List RecentRow :=
  let js := st.chat_message_join.filter (fun j => j.message_id == m.rowid)
  if js.isEmpty then [{ msg := m, chat := none }]
  else js.flatMap (fun j =>
    let cs := st.chats.filter (fun c => c.rowid == j.chat_id)
    if cs.isEmpty then [{ msg := m, chat := none }]
    else cs.map (fun c => { msg := m, chat := some c }))

/-- The full join of index.js lines 361-364. -/
def recentRows (st : Store) : List RecentRow :=
  st.messages.flatMap (recentRowsFor st)

def rowKeep (threshold : ℚ) (r : RecentRow) : Bool := msgKeep threshold r.msg

/-- `ORDER BY m.date DESC` on recent rows. -/
def rowDateDesc (a b : RecentRow) : Prop := b.msg.date ≤ a.msg.date

instance : DecidableRel rowDateDesc := fun a b => Int.decLe b.msg.date a.msg.date

instance : IsTotal RecentRow rowDateDesc := ⟨fun a b => le_total b.msg.date a.msg.date⟩

instance : IsTrans RecentRow rowDateDesc := ⟨fun _ _ _ h1 h2 => le_trans h2 h1⟩

/-- The recent-messages query (index.js lines 352-369): join, filter,
`ORDER BY m.date DESC`, `LIMIT ?`. -/
def fetchRecentRows (st : Store) (threshold : ℚ) (lim : Nat) : List RecentRow :=
  (List.insertionSort rowDateDesc ((recentRows st).filter (rowKeep threshold))).take lim

/-- A formatted entry of the recent-messages output (index.js lines
373-379); `service` is the chat's `service_name`, NULL when the row has no
chat. -/
structure RecentFormatted where
  conversation : String
  sender : String
  text : Option String
  service : Option String
deriving DecidableEq

/-- Index.js lines 373-379: `conversation: m.group_name || m.chat_identifier
|| m.sender || 'Unknown'` with JavaScript falsiness at each step. -/
def formatRecentRow (st : Store) (r : RecentRow) : RecentFormatted :=
  let sender := senderOf st r.msg
  { conversation := jsOr (r.chat.bind (fun c => c.display_name))
      (jsOr (r.chat.map (fun c => c.chat_identifier)) (jsOr sender "Unknown"))
    sender := if r.msg.is_from_me then "You" else jsOr sender "Unknown"
    text := r.msg.text
    service := r.chat.map (fun c => c.service_name) }

/-- `getRecentMessages(limit, hoursBack)` (index.js lines 346-395): the
threshold is `getAppleTimestamp(hoursBack / 24)`. -/
def getRecentMessages (st : Store) (lim : Nat) (hoursBack : ℚ)
    (nowUnixSeconds : Int) : List RecentFormatted :=
  let threshold := getAppleTimestamp nowUnixSeconds (hoursBack / 24)
  (fetchRecentRows st threshold lim).map (formatRecentRow st)

/-! ### listConversations (index.js lines 121-168) -/

/-- `SELECT COUNT(*) FROM chat_handle_join WHERE chat_id = ?`. -/
def participantCount (st : Store) (cid : Nat) : Nat :=
  st.chat_handle_join.countP (fun j => j.chat_id == cid)

/-- `SELECT MAX(m.date) FROM chat_message_join cmj JOIN message m ... WHERE
cmj.chat_id = ?` (index.js lines 136-138); SQL `MAX` of no rows is NULL. -/
def lastMessageDate (st : Store) (cid : Nat) : Option Int :=
  ((st.chat_message_join.filter (fun j => j.chat_id == cid)).flatMap
    (fun j => (st.messages.filter (fun m => m.rowid == j.message_id)).map
      (fun m => m.date))).max?

/-- The `WHERE 1=1 ${serviceFilter}` clause (index.js line 125/140): when
`includeSms` is false only `service_name = 'iMessage'` rows survive. -/
def listSelectedChats (st : Store) (includeSms : Bool) : List Chat :=
  if includeSms then st.chats
  else st.chats.filter (fun c => c.service_name == "iMessage")

/-- One pass of grouping keeping the first row of each key; models SQL
`GROUP BY` (which in SQLite picks one representative row per key). -/
def dedupByKeyAux {κ : Type} [DecidableEq κ] (key : Chat → κ) :
    List κ → List Chat → List Chat
  | _, [] => []
  | seen, c :: rest =>
    if key c ∈ seen then dedupByKeyAux key seen rest
    else c :: dedupByKeyAux key (key c :: seen) rest

def dedupByKey {κ : Type} [DecidableEq κ] (key : Chat → κ) (l : List Chat) :
    List Chat :=
  dedupByKeyAux key [] l

/-- `GROUP BY c.group_id` (index.js line 141): the key is the raw
`group_id`, so ALL rows with NULL `group_id` fall into one group (SQLite
`GROUP BY` treats NULLs as equal). -/
def listGroupedChats (st : Store) (includeSms : Bool) : List Chat :=
  dedupByKey (fun c => c.group_id) (listSelectedChats st includeSms)

/-- The `ORDER BY last_message_date DESC` key; NULL sorts last under DESC in
SQLite, i.e. as the bottom element. -/
def listSortKey (st : Store) (c : Chat) : WithBot Int :=
  match lastMessageDate st c.rowid with
  | none => ⊥
  | some d => (d : WithBot Int)

def listOrder (st : Store) (a b : Chat) : Prop :=
  listSortKey st b ≤ listSortKey st a

instance (st : Store) : DecidableRel (listOrder st) := fun a b =>
  inferInstanceAs (Decidable (listSortKey st b ≤ listSortKey st a))

instance (st : Store) : IsTotal Chat (listOrder st) :=
  ⟨fun a b => le_total (listSortKey st b) (listSortKey st a)⟩

instance (st : Store) : IsTrans Chat (listOrder st) :=
  ⟨fun _ _ _ h1 h2 => le_trans h2 h1⟩

/-- The chat rows underlying the list-conversations output (index.js lines
128-144): filter, `GROUP BY c.group_id`, `ORDER BY last_message_date DESC`,
`LIMIT ?`. -/
def listConversationRows (st : Store) (lim : Nat) (includeSms : Bool) :
    List Chat :=
  (List.insertionSort (listOrder st) (listGroupedChats st includeSms)).take lim

/-- A formatted list-conversations entry (index.js lines 148-156). -/
structure ConvEntry where
  chat_id : Nat
  name : String
  type : String
  service : String
  participants : Nat
  last_activity : Option ℚ
deriving DecidableEq

/-- Index.js lines 148-156. `last_activity` keeps the millisecond value fed
to `new Date(...)`; JavaScript truthiness makes a 0 date render as null. -/
def formatConvEntry (st : Store) (c : Chat) : ConvEntry :=
  { chat_id := c.rowid
    name := jsOr c.display_name c.chat_identifier
    type := if participantCount st c.rowid > 1 then "group" else "individual"
    service := c.service_name
    participants := participantCount st c.rowid
    last_activity := match lastMessageDate st c.rowid with
      | some d => if d == 0 then none else some (toDisplayMs d)
      | none => none }

/-- `listConversations(limit, includeSms)` (index.js lines 121-168). -/
def listConversations (st : Store) (lim : Nat) (includeSms : Bool) :
    List ConvEntry :=
  (listConversationRows st lim includeSms).map (formatConvEntry st)

/-! ### searchConversations (index.js lines 170-225) -/

/-- The WHERE clause of the search query (index.js lines 186-188): the chat
survives when its `display_name` or `chat_identifier` is LIKE `%query%`, or
some LEFT-JOINed handle's `id` is (a NULL column is LIKE nothing). -/
def chatMatchesQuery (st : Store) (q : String) (c : Chat) : Bool :=
  (match c.display_name with
   | some d => likeContains q d
   | none => false) ||
  likeContains q c.chat_identifier ||
  st.chat_handle_join.any (fun j =>
    j.chat_id == c.rowid &&
      st.handles.any (fun h => h.rowid == j.handle_id && likeContains q h.id))

/-- `GROUP BY COALESCE(c.group_id, c.ROWID)` (index.js line 189): a NULL
`group_id` falls back to the row's own id, so NULL-key rows never share a
group. -/
def searchKey (c : Chat) : Sum String Nat :=
  match c.group_id with
  | some g => Sum.inl g
  | none => Sum.inr c.rowid

/-- `ORDER BY c.ROWID DESC` (index.js line 190). -/
def rowidDesc (a b : Chat) : Prop := b.rowid ≤ a.rowid

instance : DecidableRel rowidDesc := fun a b => Nat.decLe b.rowid a.rowid

instance : IsTotal Chat rowidDesc := ⟨fun a b => le_total b.rowid a.rowid⟩

instance : IsTrans Chat rowidDesc := ⟨fun _ _ _ h1 h2 => le_trans h2 h1⟩

/-- The chat rows underlying the search output (index.js lines 175-192):
filter, `GROUP BY COALESCE(c.group_id, c.ROWID)`, `ORDER BY c.ROWID DESC`,
`LIMIT ?`. -/
def searchConversationRows (st : Store) (q : String) (lim : Nat) : List Chat :=
  (List.insertionSort rowidDesc
    (dedupByKey searchKey (st.chats.filter (chatMatchesQuery st q)))).take lim

/-- The per-conversation participant query (index.js lines 197-202). -/
def chatParticipants (st : Store) (cid : Nat) : List String :=
  (st.chat_handle_join.filter (fun j => j.chat_id == cid)).flatMap
    (fun j => (st.handles.filter (fun h => h.rowid == j.handle_id)).map
      (fun h => h.id))

/-- A formatted search result entry (index.js lines 204-210). -/
structure SearchEntry where
  chat_id : Nat
  name : String
  type : String
  service : String
  participants : List String
deriving DecidableEq

/-- `searchConversations(query, limit)` (index.js lines 170-225). -/
def searchConversations (st : Store) (q : String) (lim : Nat) :
    List SearchEntry :=
  (searchConversationRows st q lim).map (fun c =>
    { chat_id := c.rowid
      name := jsOr c.display_name c.chat_identifier
      type := if participantCount st c.rowid > 1 then "group" else "individual"
      service := c.service_name
      participants := chatParticipants st c.rowid })

/-! ### The tool-call boundary (index.js lines 99-118) and the per-operation
handle lifecycle (the `openDb` / try / `db.close()` / catch-`db.close()`
shape shared by lines 121-167, 170-224, 227-343, 346-394). -/

/-- A request arriving at the `CallToolRequestSchema` handler. -/
inductive ToolCall where
  | listTool (lim : Nat) (includeSms : Bool)
  | searchTool (q : String) (lim : Nat)
  | readTool (identifier : String) (lim : Nat) (daysBack : ℚ)
  | recentTool (lim : Nat) (hoursBack : ℚ)
  | unknownTool (name : String)
deriving DecidableEq

/-- The JSON payload a successful operation serializes. -/
inductive Payload where
  | listPayload (count : Nat) (conversations : List ConvEntry)
  | searchPayload (q : String) (found : Nat) (results : List SearchEntry)
  | readPayload (r : ReadResult)
  | recentPayload (hoursBack : ℚ) (count : Nat) (messages : List RecentFormatted)
deriving DecidableEq

/-- The single text content item every call returns: either the serialized
payload or the `Error: <message>` rendering of a caught exception. -/
inductive Response where
  | success (p : Payload)
  | errorText (t : String)
deriving DecidableEq

/-- Open/close accounting for the read-only store handle. -/
structure DbLedger where
  opens : Nat
  closes : Nat
deriving DecidableEq

def dbOpen (l : DbLedger) : DbLedger := { l with opens := l.opens + 1 }

def dbClose (l : DbLedger) : DbLedger := { l with closes := l.closes + 1 }

/-- The shared operation shape: `const db = await this.openDb(); try { ...;
await db.close(); return ...; } catch (error) { await db.close(); throw
error; }`. `fault` injects a store failure thrown by an underlying query;
on both the success and the error path the handle is closed before the
result or the exception propagates. -/
def withDb {α : Type} (fault : Option String) (body : Except String α)
    (l : DbLedger) : Except String α × DbLedger :=
  let l1 := dbOpen l
  match fault with
  | some e => (Except.error e, dbClose l1)
  | none =>
    match body with
    | Except.ok a => (Except.ok a, dbClose l1)
    | Except.error e => (Except.error e, dbClose l1)

/-- The pure outcome of each operation's body (what the queries and the
formatting produce when no store fault occurs). -/
def toolBody (st : Store) (nowUnixSeconds : Int) : ToolCall → Except String Payload
  | ToolCall.listTool lim inc =>
    Except.ok (Payload.listPayload (listConversations st lim inc).length
      (listConversations st lim inc))
  | ToolCall.searchTool q lim =>
    Except.ok (Payload.searchPayload q (searchConversations st q lim).length
      (searchConversations st q lim))
  | ToolCall.readTool identifier lim daysBack =>
    (readMessages st identifier lim daysBack nowUnixSeconds).map Payload.readPayload
  | ToolCall.recentTool lim hoursBack =>
    Except.ok (Payload.recentPayload hoursBack
      (getRecentMessages st lim hoursBack nowUnixSeconds).length
      (getRecentMessages st lim hoursBack nowUnixSeconds))
  | ToolCall.unknownTool name => Except.error ("Unknown tool: " ++ name)

/-- The `CallToolRequestSchema` handler (index.js lines 99-118): dispatch,
catch every thrown error, render it as the single text `Error: <message>`.
The unknown-tool default throws before any operation opens the handle. -/
def callTool (st : Store) (nowUnixSeconds : Int) (fault : Option String)
    (call : ToolCall) (l : DbLedger) : Response × DbLedger :=
  match call with
  | ToolCall.unknownTool name =>
    (Response.errorText ("Error: " ++ ("Unknown tool: " ++ name)), l)
  | c =>
    match withDb fault (toolBody st nowUnixSeconds c) l with
    | (Except.ok p, l2) => (Response.success p, l2)
    | (Except.error e, l2) => (Response.errorText ("Error: " ++ e), l2)

instance {α β : Type} [DecidableEq α] [DecidableEq β] : DecidableEq (Except α β) := fun a b =>
  match a, b with
  | Except.ok x, Except.ok y =>
    if h : x = y then isTrue (by rw [h]) else isFalse (fun hc => h (Except.ok.inj hc))
  | Except.error x, Except.error y =>
    if h : x = y then isTrue (by rw [h]) else isFalse (fun hc => h (Except.error.inj hc))
  | Except.ok _, Except.error _ => isFalse (fun hc => Except.noConfusion hc)
  | Except.error _, Except.ok _ => isFalse (fun hc => Except.noConfusion hc)

/-! ### Shared lemmas -/

theorem hasText_iff (m : Message) :
    hasText m = true ↔ ∃ t, m.text = some t ∧ t ≠ "" := by
  unfold hasText
  cases hm : m.text with
  | none => simp
  | some t =>
    simp only [Bool.not_eq_true']
    constructor
    · intro h
      exact ⟨t, rfl, by simpa using h⟩
    · rintro ⟨u, hu, hne⟩
      cases hu
      simpa using hne

theorem msgKeep_iff (threshold : ℚ) (m : Message) :
    msgKeep threshold m = true ↔ threshold < (m.date : ℚ) ∧ hasText m = true := by
  unfold msgKeep
  simp [Bool.and_eq_true, decide_eq_true_eq]

theorem mem_of_mem_sortTake {α : Type} {r : α → α → Prop} [DecidableRel r]
    {l : List α} {n : Nat} {m : α}
    (h : m ∈ (List.insertionSort r l).take n) : m ∈ l := by
  have h1 := (List.take_sublist n _).subset h
  rwa [List.mem_insertionSort] at h1

theorem countP_flatMap {α β : Type} (l : List α) (f : α → List β) (p : β → Bool) :
    (l.flatMap f).countP p = (l.map (fun a => (f a).countP p)).sum := by
  induction l with
  | nil => rfl
  | cons x xs ih => simp [List.flatMap_cons, List.countP_append, ih]

theorem sum_le_countP {α : Type} (l : List α) (g : α → Nat) (q : α → Bool)
    (h : ∀ a ∈ l, g a ≤ if q a then 1 else 0) :
    (l.map g).sum ≤ l.countP q := by
  induction l with
  | nil => simp
  | cons x xs ih =>
    simp only [List.map_cons, List.sum_cons, List.countP_cons]
    have h1 := h x (List.mem_cons_self x xs)
    have h2 := ih (fun a ha => h a (List.mem_cons_of_mem x ha))
    cases hq : q x with
    | false => simp [hq] at h1 ⊢; omega
    | true => simp [hq] at h1 ⊢; omega

theorem countP_keyval_le_one {α β : Type} [DecidableEq β] (l : List α) (f : α → β)
    (v : β) (hnd : (l.map f).Nodup) : l.countP (fun x => decide (f x = v)) ≤ 1 := by
  have h1 : l.countP (fun x => decide (f x = v)) =
      (l.map f).countP (fun y => decide (y = v)) := by
    rw [List.countP_map]
    rfl
  rw [h1]
  have h2 : (l.map f).countP (fun y => decide (y = v)) ≤ (l.map f).countP (fun y => y == v) := by
    refine List.countP_mono_left (fun a _ ha => ?_)
    simp only [decide_eq_true_eq] at ha
    simpa using ha
  calc (l.map f).countP (fun y => decide (y = v))
      ≤ (l.map f).countP (fun y => y == v) := h2
    _ = (l.map f).count v := (List.count_eq_countP v (l.map f)).symm
    _ ≤ 1 := List.nodup_iff_count_le_one.mp hnd v

theorem countP_filter_le {α : Type} (l : List α) (p q : α → Bool) :
    (l.filter q).countP p ≤ l.countP p := by
  exact (List.filter_sublist l).countP_le p

/-! ### Claim C1 -/

/-- C1 failing input: a single chat whose `group_id` is NULL, with one
in-window non-empty message joined to it. -/
def c1store : Store :=
  { chats := [⟨7, none, "chat7", "iMessage", none⟩]
    handles := []
    messages := [⟨100, 77000000000, some "hi", false, none, "iMessage"⟩]
    chat_handle_join := []
    chat_message_join := [⟨7, 100⟩] }

def c1msg : Message := ⟨100, 77000000000, some "hi", false, none, "iMessage"⟩

/-- C1: for an all-digit identifier whose conversation record exists but has
a NULL logical group key, the claim says the resolved set is exactly the
single record itself and retrieval over it succeeds. The code instead binds
the NULL key into `WHERE group_id = ?`, which matches no row, so the
resolved set is empty and the conversation's own qualifying message is
dropped: `resolve("7")` returns `chat_ids = []` and zero messages even
though chat 7 exists and message 100 is joined to it, is inside the window,
and has non-empty text. -/
theorem c1_null_group_key_drops_conversation :
    readMessages c1store "7" 50 30 978307200 =
      Except.ok (ReadResult.conv ⟨"chat7", "group", "iMessage", []⟩ []) ∧
    findChat c1store 7 = some ⟨7, none, "chat7", "iMessage", none⟩ ∧
    relatedChatIds c1store none = [] ∧
    c1msg ∈ convJoinRows c1store [7] ∧
    msgKeep (getAppleTimestamp 978307200 30) c1msg = true := by
  refine ⟨by decide, by decide, by decide, by decide, ?_⟩
  have h : getAppleTimestamp 978307200 30 = (((-2592000000000000 : Int) : ℚ)) := by
    norm_num [getAppleTimestamp, appleEpoch]
  rw [h]
  decide

/-! ### Claim C5 -/

/-- C5 counterexample: the NotFound error for a missing numeric conversation
id carries the message `Chat not found: <id>`, not the claimed
`conversation not found: <id>`. -/
theorem c5_counterexample :
    readMessages (Store.mk [] [] [] [] []) "12345" 50 30 0 =
      Except.error "Chat not found: 12345" ∧
    "Chat not found: 12345" ≠ "conversation not found: 12345" := by
  exact ⟨by decide, by decide⟩

/-- C5 amended: for every all-digit identifier with no matching conversation
record, resolution fails with the error message `Chat not found: <parsed
id>` and never falls through to contact-kind resolution (the result is this
error for every store, in particular stores whose handle table would match
the identifier); the conversation-vs-contact decision is made once by the
all-digit pattern test and is final. -/
theorem c5_amended (st : Store) (identifier : String) (lim : Nat) (daysBack : ℚ)
    (now : Int) (h1 : isNumeric identifier = true)
    (h2 : findChat st (parseIntNat identifier) = none) :
    readMessages st identifier lim daysBack now =
      Except.error ("Chat not found: " ++ toString (parseIntNat identifier)) := by
  simp [readMessages, h1, h2]

/-- C5 witness: the store holds a handle whose id contains "12345", yet the
numeric lookup still fails with the chat-not-found error instead of falling
through to contact resolution. -/
theorem c5_witness :
    readMessages (Store.mk [] [⟨1, "12345"⟩] [] [] []) "12345" 50 30 0 =
      Except.error ("Chat not found: " ++ toString (parseIntNat "12345")) :=
  c5_amended (Store.mk [] [⟨1, "12345"⟩] [] [] []) "12345" 50 30 0 (by decide) (by decide)

/-! ### Claim C7 -/

def c7cexStore : Store :=
  { chats := [], handles := [⟨1, "5551234567"⟩]
    messages := [], chat_handle_join := [], chat_message_join := [] }

def c7store : Store :=
  { chats := []
    handles := [⟨1, "5551234567"⟩, ⟨2, "+15551234567"⟩, ⟨3, "x +1 (555) 123-4567 y"⟩]
    messages := [], chat_handle_join := [], chat_message_join := [] }

/-- C7 counterexample: the claim says `+1 (555) 123-4567` matches a handle
stored as `5551234567` — it does not (the normalized form keeps the leading
`+`, and no LIKE pattern drops it); and the claim says normalization strips
everything except digits and a LEADING `+` — the code keeps every `+`
wherever it occurs (`1+2` normalizes to `1+2`, not `12`). -/
theorem c7_counterexample :
    matchingHandles c7cexStore "+1 (555) 123-4567" = [] ∧
    cleanNumber "1+2" = "1+2" := by
  exact ⟨by decide, by decide⟩

/-- C7 amended: contact resolution strips all characters except digits and
`+` signs (wherever they occur) to obtain the normalized form, and matches
exactly the handle records whose identifier contains (as an ASCII-case-
insensitive substring, per SQLite LIKE) the raw input, the normalized form,
or the normalized form prefixed with `+`; in particular
`+1 (555) 123-4567` matches a handle stored as `+15551234567` or one
containing the raw punctuated string, but not one stored as `5551234567`. -/
theorem c7_amended :
    (∀ (st : Store) (identifier : String) (h : Handle),
      h ∈ matchingHandles st identifier ↔
        h ∈ st.handles ∧
          (likeContains identifier h.id = true ∨
           likeContains (cleanNumber identifier) h.id = true ∨
           likeContains ("+" ++ cleanNumber identifier) h.id = true)) ∧
    cleanNumber "+1 (555) 123-4567" = "+15551234567" ∧
    matchingHandles c7store "+1 (555) 123-4567" =
      [⟨2, "+15551234567"⟩, ⟨3, "x +1 (555) 123-4567 y"⟩] := by
  refine ⟨fun st identifier h => ?_, by decide, by decide⟩
  simp only [matchingHandles, List.mem_filter, Bool.or_eq_true]
  tauto

/-! ### Claim C8 -/

/-- C8: the native threshold is computed as
`(currentUnixSeconds − 978307200 − durationSeconds) × 10⁹` with the fixed
1970-to-2001 epoch offset (both for a day-based and for an hours-based
caller), the exact-arithmetic native-to-display-to-native round trip is the
identity, and the integer-truncating round trip returns `t` within one
`10⁹` (nanoseconds-per-second) unit, truncating consistently downward. -/
theorem c8_timestamp_codec (now : Int) (d hrs : ℚ) (t : Int) (tn : Nat) :
    getAppleTimestamp now d = ((now : ℚ) - 978307200 - d * 86400) * 1000000000 ∧
    getAppleTimestamp now (hrs / 24) =
      ((now : ℚ) - 978307200 - hrs * 3600) * 1000000000 ∧
    toNativeFromMs (toDisplayMs t) = (t : ℚ) ∧
    toNativeFromMsInt (toDisplayMsInt tn) = tn / 1000000000 * 1000000000 ∧
    toNativeFromMsInt (toDisplayMsInt tn) ≤ tn ∧
    tn < toNativeFromMsInt (toDisplayMsInt tn) + 1000000000 := by
  have hdisp : toDisplayMsInt tn / 1000 = tn / 1000000000 + 978307200 := by
    unfold toDisplayMsInt
    exact Nat.mul_div_cancel _ (by norm_num)
  have hrt : toNativeFromMsInt (toDisplayMsInt tn) = tn / 1000000000 * 1000000000 := by
    unfold toNativeFromMsInt
    rw [hdisp, Nat.add_sub_cancel]
  refine ⟨?_, ?_, ?_, hrt, ?_, ?_⟩
  · unfold getAppleTimestamp appleEpoch
    push_cast
    ring
  · unfold getAppleTimestamp appleEpoch
    push_cast
    field_simp
    ring
  · unfold toNativeFromMs toDisplayMs appleEpoch
    push_cast
    field_simp
    ring
  · rw [hrt]
    omega
  · rw [hrt]
    omega

/-! ### Claim C10 -/

/-- C10: whenever an all-digit identifier resolves to an existing
conversation record, the read-messages result metadata carries
`type = "group"` — for every store, hence regardless of the chat's
participant count. -/
theorem c10_numeric_reads_report_group (st : Store) (identifier : String)
    (lim : Nat) (daysBack : ℚ) (now : Int) (c : Chat)
    (h1 : isNumeric identifier = true)
    (h2 : findChat st (parseIntNat identifier) = some c) :
    ∃ info msgs, readMessages st identifier lim daysBack now =
      Except.ok (ReadResult.conv info msgs) ∧ info.type = "group" := by
  refine ⟨ConvInfo.mk (jsOr c.display_name c.chat_identifier) "group"
      c.service_name (relatedChatIds st c.group_id),
    (fetchConvMessages st (relatedChatIds st c.group_id)
      (getAppleTimestamp now daysBack) lim).map (formatMessage st), ?_, rfl⟩
  simp [readMessages, h1, h2]

def c10store : Store :=
  { chats := [⟨5, none, "+15550001111", "iMessage", none⟩]
    handles := [⟨9, "+15550001111"⟩]
    messages := []
    chat_handle_join := [⟨5, 9⟩]
    chat_message_join := [] }

/-- C10 witness: chat 5 has exactly one participant (an individual
conversation), yet `read_messages "5"` reports `type = "group"`. -/
theorem c10_witness :
    participantCount c10store 5 = 1 ∧
    ∃ info msgs, readMessages c10store "5" 50 30 0 =
      Except.ok (ReadResult.conv info msgs) ∧ info.type = "group" :=
  ⟨by decide, c10_numeric_reads_report_group c10store "5" 50 30 0
    ⟨5, none, "+15550001111", "iMessage", none⟩ (by decide) (by decide)⟩

/-! ### Claim C4 -/

theorem fetchConv_hasText (st : Store) (ids : List Nat) (th : ℚ) (lim : Nat)
    (m : Message) (hm : m ∈ fetchConvMessages st ids th lim) : hasText m = true := by
  have h1 : m ∈ (convJoinRows st ids).filter (msgKeep th) := mem_of_mem_sortTake hm
  exact ((msgKeep_iff th m).mp (List.mem_filter.mp h1).2).2

theorem fetchContact_hasText (st : Store) (ids : List Nat) (th : ℚ) (lim : Nat)
    (m : Message) (hm : m ∈ fetchContactMessages st ids th lim) : hasText m = true := by
  have h1 : m ∈ (contactJoinRows st ids).filter (msgKeep th) := mem_of_mem_sortTake hm
  exact ((msgKeep_iff th m).mp (List.mem_filter.mp h1).2).2

theorem fetchRecent_hasText (st : Store) (th : ℚ) (lim : Nat)
    (r : RecentRow) (hr : r ∈ fetchRecentRows st th lim) : hasText r.msg = true := by
  have h1 : r ∈ (recentRows st).filter (rowKeep th) := mem_of_mem_sortTake hr
  exact ((msgKeep_iff th r.msg).mp (List.mem_filter.mp h1).2).2

theorem formatted_text_ok (st : Store) (l : List Message)
    (hl : ∀ m ∈ l, hasText m = true) (fm : FormattedMessage)
    (hfm : fm ∈ l.map (formatMessage st)) : ∃ t, fm.text = some t ∧ t ≠ "" := by
  rcases List.mem_map.mp hfm with ⟨m, hm, hfmm⟩
  rcases (hasText_iff m).mp (hl m hm) with ⟨t, ht, hne⟩
  refine ⟨t, ?_, hne⟩
  rw [← hfmm]
  exact ht

/-- C4: every message carried by a read-messages result (either branch) and
every entry of the recent-messages output has non-empty text; messages with
NULL or empty text are excluded by the query filter before formatting. (The
list and search operations return no message bodies at all: their entry
types carry only conversation metadata.) -/
theorem c4_no_empty_text (st : Store) (identifier : String) (lim : Nat)
    (daysBack : ℚ) (now : Int) (res : ReadResult) (limR : Nat) (hoursBack : ℚ) :
    (readMessages st identifier lim daysBack now = Except.ok res →
      ∀ fm ∈ readResultMessages res, ∃ t, fm.text = some t ∧ t ≠ "") ∧
    (∀ fm ∈ getRecentMessages st limR hoursBack now, ∃ t, fm.text = some t ∧ t ≠ "") := by
  constructor
  · intro hok fm hfm
    by_cases hnum : isNumeric identifier
    · cases hc : findChat st (parseIntNat identifier) with
      | none => simp [readMessages, hnum, hc] at hok
      | some c =>
        simp only [readMessages, hnum, if_true, hc] at hok
        cases hok
        exact formatted_text_ok st
          (fetchConvMessages st (relatedChatIds st c.group_id)
            (getAppleTimestamp now daysBack) lim)
          (fun m hm => fetchConv_hasText st _ _ _ m hm) fm
          (by simpa [readResultMessages] using hfm)
    · by_cases hemp : (matchingHandles st identifier).isEmpty
      · simp [readMessages, hnum, hemp] at hok
      · simp only [readMessages, hnum, if_false, hemp, Bool.false_eq_true] at hok
        cases hok
        exact formatted_text_ok st
          (fetchContactMessages st ((matchingHandles st identifier).map (fun h => h.rowid))
            (getAppleTimestamp now daysBack) lim)
          (fun m hm => fetchContact_hasText st _ _ _ m hm) fm
          (by simpa [readResultMessages] using hfm)
  · intro fm hfm
    rcases List.mem_map.mp hfm with ⟨r, hr, hfmr⟩
    rcases (hasText_iff r.msg).mp (fetchRecent_hasText st _ _ r hr) with ⟨t, ht, hne⟩
    refine ⟨t, ?_, hne⟩
    rw [← hfmr]
    exact ht

def c4store : Store :=
  { chats := [⟨7, none, "chat7", "iMessage", some "G"⟩]
    handles := []
    messages := [⟨100, 781689200000000000, some "new", false, none, "iMessage"⟩]
    chat_handle_join := []
    chat_message_join := [⟨7, 100⟩] }

/-- C4 witness: both conjuncts applied at a concrete store and call. -/
theorem c4_witness :
    (∃ t, (FormattedMessage.mk "Unknown" (some "new") "iMessage").text = some t ∧ t ≠ "") ∧
    (∃ t, (RecentFormatted.mk "chat7" "Unknown" (some "new") (some "iMessage")).text =
      some t ∧ t ≠ "") := by
  have hth : getAppleTimestamp 1760000000 30 = (((779100800000000000 : Int) : ℚ)) := by
    norm_num [getAppleTimestamp, appleEpoch]
  have hth2 : getAppleTimestamp 1760000000 ((24 : ℚ) / 24) =
      (((781606400000000000 : Int) : ℚ)) := by
    norm_num [getAppleTimestamp, appleEpoch]
  have hok : readMessages c4store "7" 50 30 1760000000 =
      Except.ok (ReadResult.conv (ConvInfo.mk "chat7" "group" "iMessage" [7])
        [FormattedMessage.mk "Unknown" (some "new") "iMessage"]) := by
    simp only [readMessages, hth]
    decide
  have hrec : getRecentMessages c4store 30 24 1760000000 =
      [RecentFormatted.mk "chat7" "Unknown" (some "new") (some "iMessage")] := by
    simp only [getRecentMessages, hth2]
    decide
  constructor
  · exact (c4_no_empty_text c4store "7" 50 30 1760000000
      (ReadResult.conv (ConvInfo.mk "chat7" "group" "iMessage" [7])
        [FormattedMessage.mk "Unknown" (some "new") "iMessage"]) 30 24).1 hok
      (FormattedMessage.mk "Unknown" (some "new") "iMessage") (by decide)
  · exact (c4_no_empty_text c4store "7" 50 30 1760000000
      (ReadResult.conv (ConvInfo.mk "chat7" "group" "iMessage" [7])
        [FormattedMessage.mk "Unknown" (some "new") "iMessage"]) 30 24).2
      (RecentFormatted.mk "chat7" "Unknown" (some "new") (some "iMessage"))
      (by rw [hrec]; decide)

/-! ### Claim C6 -/

theorem callTool_run (st : Store) (now : Int) (fault : Option String)
    (c : ToolCall) (l : DbLedger) (hne : ∀ n, c ≠ ToolCall.unknownTool n) :
    callTool st now fault c l =
      ((match fault with
        | some e => Response.errorText ("Error: " ++ e)
        | none =>
          match toolBody st now c with
          | Except.ok p => Response.success p
          | Except.error e => Response.errorText ("Error: " ++ e)),
       ⟨l.opens + 1, l.closes + 1⟩) := by
  cases c with
  | unknownTool n => exact absurd rfl (hne n)
  | listTool lim inc =>
    cases fault with
    | some e => rfl
    | none =>
      cases htb : toolBody st now (ToolCall.listTool lim inc) with
      | ok p => simp [callTool, withDb, dbOpen, dbClose, htb]
      | error e => simp [callTool, withDb, dbOpen, dbClose, htb]
  | searchTool q lim =>
    cases fault with
    | some e => rfl
    | none =>
      cases htb : toolBody st now (ToolCall.searchTool q lim) with
      | ok p => simp [callTool, withDb, dbOpen, dbClose, htb]
      | error e => simp [callTool, withDb, dbOpen, dbClose, htb]
  | readTool identifier lim daysBack =>
    cases fault with
    | some e => rfl
    | none =>
      cases htb : toolBody st now (ToolCall.readTool identifier lim daysBack) with
      | ok p => simp [callTool, withDb, dbOpen, dbClose, htb]
      | error e => simp [callTool, withDb, dbOpen, dbClose, htb]
  | recentTool lim hoursBack =>
    cases fault with
    | some e => rfl
    | none =>
      cases htb : toolBody st now (ToolCall.recentTool lim hoursBack) with
      | ok p => simp [callTool, withDb, dbOpen, dbClose, htb]
      | error e => simp [callTool, withDb, dbOpen, dbClose, htb]

/-- C6: for every operation and every input (including an injected store
failure at any underlying step), the boundary returns a single text
response; every failure is rendered as `Error: <message>` rather than
escaping; a success carries exactly the operation body's full payload and
occurs only when no store fault fired (no partial results on error); and
the store-handle open performed by an operation is always paired with a
close, on the success path and on the error path alike. -/
theorem c6_boundary_and_handle_pairing (st : Store) (now : Int)
    (fault : Option String) (call : ToolCall) (l : DbLedger) :
    ((callTool st now fault call l).2.opens + l.closes =
      (callTool st now fault call l).2.closes + l.opens) ∧
    (∀ p, (callTool st now fault call l).1 = Response.success p →
      fault = none ∧ toolBody st now call = Except.ok p) ∧
    (∀ e, (callTool st now fault call l).1 = Response.errorText e →
      ∃ msg, e = "Error: " ++ msg) ∧
    (∀ e, fault = some e → (∀ n, call ≠ ToolCall.unknownTool n) →
      (callTool st now fault call l).1 = Response.errorText ("Error: " ++ e)) := by
  by_cases hu : ∃ n, call = ToolCall.unknownTool n
  · rcases hu with ⟨n, rfl⟩
    refine ⟨by simp [callTool, Nat.add_comm], ?_, ?_, ?_⟩
    · intro p hp
      simp [callTool] at hp
    · intro e he
      simp only [callTool] at he
      exact ⟨"Unknown tool: " ++ n, (Response.errorText.inj he).symm⟩
    · intro e _ hne
      exact absurd rfl (hne n)
  · have hne : ∀ n, call ≠ ToolCall.unknownTool n := fun n hc => hu ⟨n, hc⟩
    rw [callTool_run st now fault call l hne]
    refine ⟨by simp; omega, ?_, ?_, ?_⟩
    · intro p hp
      cases fault with
      | some e => simp at hp
      | none =>
        cases htb : toolBody st now call with
        | ok q =>
          simp only [htb] at hp
          cases hp
          exact ⟨rfl, rfl⟩
        | error e => simp [htb] at hp
    · intro e he
      cases fault with
      | some msg => exact ⟨msg, (Response.errorText.inj he).symm⟩
      | none =>
        cases htb : toolBody st now call with
        | ok q => simp [htb] at he
        | error msg =>
          simp only [htb] at he
          exact ⟨msg, (Response.errorText.inj he).symm⟩
    · intro e hf _
      subst hf
      rfl

/-- C6 witness: a concrete faulted list call returns the single error text
and leaves the ledger balanced. -/
theorem c6_witness :
    (callTool (Store.mk [] [] [] [] []) 0 (some "SQLITE_CANTOPEN")
        (ToolCall.listTool 50 true) ⟨0, 0⟩).1 =
      Response.errorText ("Error: " ++ "SQLITE_CANTOPEN") ∧
    (callTool (Store.mk [] [] [] [] []) 0 (some "SQLITE_CANTOPEN")
        (ToolCall.listTool 50 true) ⟨0, 0⟩).2.opens + 0 =
      (callTool (Store.mk [] [] [] [] []) 0 (some "SQLITE_CANTOPEN")
        (ToolCall.listTool 50 true) ⟨0, 0⟩).2.closes + 0 := by
  have h := c6_boundary_and_handle_pairing (Store.mk [] [] [] [] []) 0
    (some "SQLITE_CANTOPEN") (ToolCall.listTool 50 true) ⟨0, 0⟩
  exact ⟨h.2.2.2 "SQLITE_CANTOPEN" rfl (fun n hc => ToolCall.noConfusion hc), h.1⟩

/-! ### Claim C2 -/

theorem countP_dedupByKeyAux {κ : Type} [DecidableEq κ] (key : Chat → κ) (k : κ)
    (l : List Chat) : ∀ seen : List κ,
    (dedupByKeyAux key seen l).countP (fun c => decide (key c = k)) =
      if k ∉ seen ∧ l.any (fun c => decide (key c = k)) then 1 else 0 := by
  induction l with
  | nil => intro seen; simp [dedupByKeyAux]
  | cons c rest ih =>
    intro seen
    simp only [dedupByKeyAux]
    by_cases hm : key c ∈ seen
    · rw [if_pos hm, ih seen]
      by_cases hk : key c = k
      · subst hk
        simp [hm]
      · simp [List.any_cons, hk]
    · rw [if_neg hm, List.countP_cons, ih (key c :: seen)]
      by_cases hk : key c = k
      · subst hk
        simp [hm, List.any_cons, List.mem_cons]
      · have hk2 : ¬ k = key c := fun h => hk h.symm
        simp [List.any_cons, hk, List.mem_cons, hk2]

theorem countP_dedupByKey {κ : Type} [DecidableEq κ] (key : Chat → κ) (k : κ)
    (l : List Chat) :
    (dedupByKey key l).countP (fun c => decide (key c = k)) =
      if l.any (fun c => decide (key c = k)) then 1 else 0 := by
  rw [dedupByKey, countP_dedupByKeyAux]
  simp

theorem searchKey_eq_inl (c : Chat) (g : String) :
    searchKey c = Sum.inl g ↔ c.group_id = some g := by
  unfold searchKey
  cases hg : c.group_id <;> simp

theorem searchDedupAux_null (l : List Chat)
    (hnd : (l.map (fun c => c.rowid)).Nodup) :
    ∀ seen : List (Sum String Nat),
    (∀ c ∈ l, c.group_id = none → Sum.inr c.rowid ∉ seen) →
    (dedupByKeyAux searchKey seen l).countP (fun c => decide (c.group_id = none)) =
      l.countP (fun c => decide (c.group_id = none)) := by
  induction l with
  | nil => intro seen _; rfl
  | cons c rest ih =>
    intro seen hseen
    have hnd2 : (rest.map (fun d => d.rowid)).Nodup := (List.nodup_cons.mp hnd).2
    have hcr : c.rowid ∉ rest.map (fun d => d.rowid) := (List.nodup_cons.mp hnd).1
    simp only [dedupByKeyAux]
    rcases Classical.em (searchKey c ∈ seen) with hm | hm
    · rw [if_pos hm]
      have hcnone : ¬ c.group_id = none := by
        intro hnone
        refine hseen c (List.mem_cons_self c rest) hnone ?_
        have : searchKey c = Sum.inr c.rowid := by unfold searchKey; rw [hnone]
        rwa [this] at hm
      rw [ih hnd2 seen (fun d hd hdn => hseen d (List.mem_cons_of_mem c hd) hdn)]
      rw [List.countP_cons]
      simp [hcnone]
    · rw [if_neg hm, List.countP_cons, List.countP_cons]
      rw [ih hnd2 (searchKey c :: seen) ?_]
      intro d hd hdn
      simp only [List.mem_cons]
      rintro (heq | hmem)
      · unfold searchKey at heq
        cases hg : c.group_id with
        | some g => rw [hg] at heq; exact Sum.noConfusion heq
        | none =>
          rw [hg] at heq
          have hde : d.rowid = c.rowid := Sum.inr.inj heq
          exact hcr (by rw [← hde]; exact List.mem_map_of_mem _ hd)
      · exact hseen d (List.mem_cons_of_mem c hd) hdn hmem

theorem countP_listRows (st : Store) (lim : Nat) (inc : Bool)
    (hlim : (listGroupedChats st inc).length ≤ lim) (p : Chat → Bool) :
    (listConversationRows st lim inc).countP p = (listGroupedChats st inc).countP p := by
  unfold listConversationRows
  rw [List.take_of_length_le (by rw [List.length_insertionSort]; exact hlim)]
  exact (List.perm_insertionSort _ _).countP_eq p

theorem countP_searchRows (st : Store) (q : String) (lim : Nat)
    (hlim : (dedupByKey searchKey (st.chats.filter (chatMatchesQuery st q))).length ≤ lim)
    (p : Chat → Bool) :
    (searchConversationRows st q lim).countP p =
      (dedupByKey searchKey (st.chats.filter (chatMatchesQuery st q))).countP p := by
  unfold searchConversationRows
  rw [List.take_of_length_le (by rw [List.length_insertionSort]; exact hlim)]
  exact (List.perm_insertionSort _ _).countP_eq p

def c2store : Store :=
  { chats := [⟨1, none, "a", "iMessage", none⟩, ⟨2, none, "b", "iMessage", none⟩]
    handles := [], messages := [], chat_handle_join := [], chat_message_join := [] }

/-- C2 counterexample: two conversation records with NULL logical group key
are merged by the list operation into a single reported entry (SQLite
`GROUP BY c.group_id` treats all NULLs as one group), while the claim says a
null-key record is never merged with any other record. -/
theorem c2_counterexample :
    c2store.chats.length = 2 ∧
    (∀ c ∈ c2store.chats, c.group_id = none) ∧
    (listConversations c2store 50 true).length = 1 := by
  exact ⟨by decide, by decide, by decide⟩

/-- C2 amended: with the limit large enough to not truncate, the list operation
returns exactly one entry per non-null logical group key present among its
service-filtered records, but merges ALL null-group-key records into one
entry; the search operation (whose grouping key is
`COALESCE(group_id, ROWID)`) returns exactly one entry per non-null group
key among query-matching records and never merges null-key records (each
keeps its own entry, given rowid uniqueness). The formatted outputs are in
one-to-one correspondence with these underlying rows. -/
theorem c2_amended (st : Store) (lim : Nat) (inc : Bool) (q : String) (g : String)
    (hnd : (st.chats.map (fun c => c.rowid)).Nodup)
    (hlim1 : (listGroupedChats st inc).length ≤ lim)
    (hlim2 : (dedupByKey searchKey (st.chats.filter (chatMatchesQuery st q))).length ≤ lim) :
    ((listConversationRows st lim inc).countP (fun c => decide (c.group_id = some g)) =
      if (listSelectedChats st inc).any (fun c => decide (c.group_id = some g))
      then 1 else 0) ∧
    ((listConversationRows st lim inc).countP (fun c => decide (c.group_id = none)) =
      if (listSelectedChats st inc).any (fun c => decide (c.group_id = none))
      then 1 else 0) ∧
    ((searchConversationRows st q lim).countP (fun c => decide (c.group_id = some g)) =
      if (st.chats.filter (chatMatchesQuery st q)).any
        (fun c => decide (c.group_id = some g)) then 1 else 0) ∧
    ((searchConversationRows st q lim).countP (fun c => decide (c.group_id = none)) =
      (st.chats.filter (chatMatchesQuery st q)).countP
        (fun c => decide (c.group_id = none))) ∧
    (listConversations st lim inc).length = (listConversationRows st lim inc).length ∧
    (searchConversations st q lim).length = (searchConversationRows st q lim).length := by
  refine ⟨?_, ?_, ?_, ?_, ?_, ?_⟩
  · rw [countP_listRows st lim inc hlim1]
    exact countP_dedupByKey (fun c => c.group_id) (some g) _
  · rw [countP_listRows st lim inc hlim1]
    exact countP_dedupByKey (fun c => c.group_id) none _
  · rw [countP_searchRows st q lim hlim2]
    have hpep : (fun c => decide (c.group_id = some g)) =
        (fun c => decide (searchKey c = Sum.inl g)) :=
      funext fun c => decide_eq_decide.mpr (searchKey_eq_inl c g).symm
    rw [hpep]
    exact countP_dedupByKey searchKey (Sum.inl g) _
  · rw [countP_searchRows st q lim hlim2]
    refine searchDedupAux_null _ ?_ [] (fun c _ _ h => List.not_mem_nil _ h)
    exact List.Nodup.sublist (List.Sublist.map _ (List.filter_sublist _)) hnd
  · exact List.length_map _ _
  · exact List.length_map _ _

def c2wstore : Store :=
  { chats := [⟨1, none, "a", "iMessage", some "G1"⟩, ⟨2, none, "b", "SMS", some "G1"⟩,
      ⟨3, none, "c", "iMessage", none⟩]
    handles := [], messages := [], chat_handle_join := [], chat_message_join := [] }

/-- C2 witness: the amended theorem applied at a concrete store holding two
records of group `G1` and one null-key record. -/
theorem c2_witness :
    ((listConversationRows c2wstore 50 true).countP
      (fun c => decide (c.group_id = some "G1")) =
      if (listSelectedChats c2wstore true).any (fun c => decide (c.group_id = some "G1"))
      then 1 else 0) ∧
    ((searchConversationRows c2wstore "" 50).countP (fun c => decide (c.group_id = none)) =
      (c2wstore.chats.filter (chatMatchesQuery c2wstore "")).countP
        (fun c => decide (c.group_id = none))) := by
  have h := c2_amended c2wstore 50 true "" "G1" (by decide) (by decide) (by decide)
  exact ⟨h.1, h.2.2.2.1⟩

/-! ### Claim C3 -/

theorem convRows_countP_le (st : Store) (recordIds : List Nat) (mid : Nat)
    (hmsg : (st.messages.map (fun m => m.rowid)).Nodup)
    (hjoin : st.chat_message_join.countP
      (fun j => recordIds.contains j.chat_id && decide (j.message_id = mid)) ≤ 1) :
    (convJoinRows st recordIds).countP (fun m => decide (m.rowid = mid)) ≤ 1 := by
  unfold convJoinRows
  rw [countP_flatMap]
  have hstep : ((st.chat_message_join.filter (fun j => recordIds.contains j.chat_id)).map
      (fun j => (st.messages.filter (fun m => m.rowid == j.message_id)).countP
        (fun m => decide (m.rowid = mid)))).sum ≤
      (st.chat_message_join.filter (fun j => recordIds.contains j.chat_id)).countP
        (fun j => decide (j.message_id = mid)) := by
    refine sum_le_countP _ _ _ (fun j _ => ?_)
    by_cases hjm : j.message_id = mid
    · subst hjm
      simp only [decide_True, if_true]
      calc (st.messages.filter (fun m => m.rowid == j.message_id)).countP
            (fun m => decide (m.rowid = j.message_id))
          ≤ st.messages.countP (fun m => decide (m.rowid = j.message_id)) :=
            countP_filter_le _ _ _
        _ ≤ 1 := countP_keyval_le_one st.messages (fun m => m.rowid) j.message_id hmsg
    · simp only [hjm, decide_False, if_false]
      simp only [Bool.false_eq_true, if_false, Nat.le_zero, List.countP_eq_zero]
      intro m hm
      have h2 := (List.mem_filter.mp hm).2
      simp only [beq_iff_eq] at h2
      simp [h2, hjm]
  refine le_trans hstep (le_trans ?_ hjoin)
  rw [List.countP_filter]
  refine le_of_eq (List.countP_congr (fun j _ => ?_))
  rw [Bool.and_comm]

theorem msg_of_mem_recentRowsFor (st : Store) (m : Message) (r : RecentRow)
    (hr : r ∈ recentRowsFor st m) : r.msg = m := by
  unfold recentRowsFor at hr
  by_cases hje : (st.chat_message_join.filter (fun j => j.message_id == m.rowid)).isEmpty
  · simp only [hje, if_true, List.mem_singleton] at hr
    rw [hr]
  · simp only [hje, Bool.false_eq_true, if_false, List.mem_flatMap] at hr
    rcases hr with ⟨j, _, hrj⟩
    by_cases hce : (st.chats.filter (fun c => c.rowid == j.chat_id)).isEmpty
    · simp only [hce, if_true, List.mem_singleton] at hrj
      rw [hrj]
    · simp only [hce, Bool.false_eq_true, if_false, List.mem_map] at hrj
      rcases hrj with ⟨c, _, hrc⟩
      rw [← hrc]

theorem length_recentRowsFor_le_one (st : Store) (m : Message)
    (hchat : (st.chats.map (fun c => c.rowid)).Nodup)
    (hjoin : st.chat_message_join.countP (fun j => decide (j.message_id = m.rowid)) ≤ 1) :
    (recentRowsFor st m).length ≤ 1 := by
  unfold recentRowsFor
  have hjlen : (st.chat_message_join.filter (fun j => j.message_id == m.rowid)).length ≤ 1 := by
    rw [← List.countP_eq_length_filter]
    refine le_trans (le_of_eq (List.countP_congr (fun j _ => ?_))) hjoin
    simp
  by_cases hje : (st.chat_message_join.filter (fun j => j.message_id == m.rowid)).isEmpty
  · simp [hje]
  · simp only [hje, Bool.false_eq_true, if_false]
    have hex : ∃ j, st.chat_message_join.filter (fun j => j.message_id == m.rowid) = [j] := by
      rcases hl : st.chat_message_join.filter (fun j => j.message_id == m.rowid) with _ | ⟨j, rest⟩
      · rw [hl] at hje; simp at hje
      · rw [hl] at hjlen
        simp only [List.length_cons] at hjlen
        have hrn : rest = [] := List.eq_nil_of_length_eq_zero (by omega)
        exact ⟨j, by rw [hl, hrn]⟩
    rcases hex with ⟨j, hj⟩
    rw [hj]
    simp only [List.flatMap_cons, List.flatMap_nil, List.append_nil]
    by_cases hce : (st.chats.filter (fun c => c.rowid == j.chat_id)).isEmpty
    · simp [hce]
    · simp only [hce, Bool.false_eq_true, if_false, List.length_map,
        ← List.countP_eq_length_filter]
      refine le_trans (le_of_eq (List.countP_congr (fun c _ => ?_)))
        (countP_keyval_le_one st.chats (fun c => c.rowid) j.chat_id hchat)
      simp

theorem recentRows_countP_le (st : Store) (mid : Nat)
    (hmsg : (st.messages.map (fun m => m.rowid)).Nodup)
    (hchat : (st.chats.map (fun c => c.rowid)).Nodup)
    (hjoin : st.chat_message_join.countP (fun j => decide (j.message_id = mid)) ≤ 1) :
    (recentRows st).countP (fun r => decide (r.msg.rowid = mid)) ≤ 1 := by
  unfold recentRows
  rw [countP_flatMap]
  have hstep : ((st.messages.map
      (fun m => (recentRowsFor st m).countP (fun r => decide (r.msg.rowid = mid)))).sum) ≤
      st.messages.countP (fun m => decide (m.rowid = mid)) := by
    refine sum_le_countP _ _ _ (fun m _ => ?_)
    by_cases hmm : m.rowid = mid
    · simp only [hmm, decide_True, if_true]
      refine le_trans (List.countP_le_length _) ?_
      refine length_recentRowsFor_le_one st m hchat ?_
      rw [hmm]
      exact hjoin
    · simp only [hmm, decide_False, if_false]
      simp only [Bool.false_eq_true, if_false, Nat.le_zero, List.countP_eq_zero]
      intro r hrm
      rw [msg_of_mem_recentRowsFor st m r hrm]
      simp [hmm]
  exact le_trans hstep (countP_keyval_le_one st.messages (fun m => m.rowid) mid hmsg)

def c3store : Store :=
  { chats := [⟨7, none, "g", "iMessage", some "G1"⟩, ⟨8, none, "g", "SMS", some "G1"⟩]
    handles := []
    messages := [⟨100, 5, some "hi", false, none, "iMessage"⟩]
    chat_handle_join := []
    chat_message_join := [⟨7, 100⟩, ⟨8, 100⟩] }

/-- C3 counterexample: chat records 7 and 8 share group key `G1`, so the
identifier `7` resolves to the record set `[7, 8]`; message 100 is joined to
both records and the conversation query returns it TWICE (no dedup in the
SQL), while the claim says each logical message appears at most once. -/
theorem c3_counterexample :
    relatedChatIds c3store (some "G1") = [7, 8] ∧
    (fetchConvMessages c3store [7, 8] 0 50).countP (fun m => decide (m.rowid = 100)) = 2 := by
  exact ⟨by decide, by decide⟩

/-- C3 amended: under the store's primary-key uniqueness, a logical message
appears at most once in a retrieval provided it is joined to at most one of
the resolved record ids (conversation kind) respectively has at most one
conversation join row (global kind); a message joined to several resolved
records appears once per join row, so cross-protocol duplicate join rows
are double-counted, not deduplicated. -/
theorem c3_amended (st : Store) (recordIds : List Nat) (threshold : ℚ)
    (lim : Nat) (mid : Nat)
    (hmsg : (st.messages.map (fun m => m.rowid)).Nodup)
    (hchat : (st.chats.map (fun c => c.rowid)).Nodup)
    (hjoin1 : st.chat_message_join.countP
      (fun j => recordIds.contains j.chat_id && decide (j.message_id = mid)) ≤ 1)
    (hjoin2 : st.chat_message_join.countP (fun j => decide (j.message_id = mid)) ≤ 1) :
    (fetchConvMessages st recordIds threshold lim).countP
      (fun m => decide (m.rowid = mid)) ≤ 1 ∧
    (fetchRecentRows st threshold lim).countP
      (fun r => decide (r.msg.rowid = mid)) ≤ 1 := by
  constructor
  · unfold fetchConvMessages
    refine le_trans ((List.take_sublist _ _).countP_le _) ?_
    rw [(List.perm_insertionSort _ _).countP_eq]
    refine le_trans (countP_filter_le _ _ _) ?_
    exact convRows_countP_le st recordIds mid hmsg hjoin1
  · unfold fetchRecentRows
    refine le_trans ((List.take_sublist _ _).countP_le _) ?_
    rw [(List.perm_insertionSort _ _).countP_eq]
    refine le_trans (countP_filter_le _ _ _) ?_
    exact recentRows_countP_le st mid hmsg hchat hjoin2

def c3wstore : Store :=
  { chats := [⟨7, none, "g", "iMessage", some "G1"⟩]
    handles := []
    messages := [⟨100, 5, some "hi", false, none, "iMessage"⟩]
    chat_handle_join := []
    chat_message_join := [⟨7, 100⟩] }

/-- C3 witness: the amended bound applied at a concrete store in which
message 100 has a single join row. -/
theorem c3_witness :
    (fetchConvMessages c3wstore [7] 0 50).countP (fun m => decide (m.rowid = 100)) ≤ 1 ∧
    (fetchRecentRows c3wstore 0 50).countP (fun r => decide (r.msg.rowid = 100)) ≤ 1 :=
  c3_amended c3wstore [7] 0 50 100 (by decide) (by decide) (by decide) (by decide)

/-! ### Claim C9 -/

theorem mem_convJoinRows (st : Store) (recordIds : List Nat) (m : Message) :
    m ∈ convJoinRows st recordIds ↔
      ∃ j ∈ st.chat_message_join, recordIds.contains j.chat_id = true ∧
        m ∈ st.messages ∧ m.rowid = j.message_id := by
  unfold convJoinRows
  simp only [List.mem_flatMap, List.mem_filter, beq_iff_eq]
  tauto

theorem msg_mem_of_mem_recentRows (st : Store) (r : RecentRow)
    (hr : r ∈ recentRows st) : r.msg ∈ st.messages := by
  unfold recentRows at hr
  rcases List.mem_flatMap.mp hr with ⟨m, hm, hrm⟩
  rw [msg_of_mem_recentRowsFor st m r hrm]
  exact hm

def c9now : Int := 1760000000

def c9msgOld : Message :=
  ⟨1, (1760000000 - 978307200 - 90000) * 1000000000, some "old", false, none, "iMessage"⟩

def c9msgNew : Message :=
  ⟨2, (1760000000 - 978307200 - 3600) * 1000000000, some "new", false, none, "iMessage"⟩

def c9store : Store :=
  { chats := [], handles := [], messages := [c9msgOld, c9msgNew]
    chat_handle_join := [], chat_message_join := [] }

/-- C9: conversation-kind retrieval returns only messages joined to one of
the resolved record ids, strictly newer than the threshold and with
non-empty text, sorted by native timestamp descending and truncated to the
limit, and (absent truncation) returns ALL such messages; the global
recent retrieval likewise returns only in-window non-empty-text messages,
sorted descending and truncated. In particular a 24-hour recent window at
a fixed clock keeps a 1-hour-old message and drops a 25-hour-old one. -/
theorem c9_retrieval (st : Store) (recordIds : List Nat) (threshold : ℚ) (lim : Nat) :
    (∀ m ∈ fetchConvMessages st recordIds threshold lim,
      (∃ j ∈ st.chat_message_join, recordIds.contains j.chat_id = true ∧
        m ∈ st.messages ∧ m.rowid = j.message_id) ∧
      threshold < (m.date : ℚ) ∧ hasText m = true) ∧
    List.Sorted dateDesc (fetchConvMessages st recordIds threshold lim) ∧
    (fetchConvMessages st recordIds threshold lim).length ≤ lim ∧
    (((convJoinRows st recordIds).filter (msgKeep threshold)).length ≤ lim →
      ∀ m ∈ st.messages,
      (∃ j ∈ st.chat_message_join, recordIds.contains j.chat_id = true ∧
        m.rowid = j.message_id) →
      threshold < (m.date : ℚ) → hasText m = true →
      m ∈ fetchConvMessages st recordIds threshold lim) ∧
    (∀ r ∈ fetchRecentRows st threshold lim,
      r.msg ∈ st.messages ∧ threshold < (r.msg.date : ℚ) ∧ hasText r.msg = true) ∧
    List.Sorted rowDateDesc (fetchRecentRows st threshold lim) ∧
    (fetchRecentRows st threshold lim).length ≤ lim ∧
    getRecentMessages c9store 30 24 c9now =
      [RecentFormatted.mk "Unknown" "Unknown" (some "new") none] := by
  refine ⟨?_, ?_, ?_, ?_, ?_, ?_, ?_, ?_⟩
  · intro m hm
    have h1 : m ∈ (convJoinRows st recordIds).filter (msgKeep threshold) :=
      mem_of_mem_sortTake hm
    have h2 := List.mem_filter.mp h1
    exact ⟨(mem_convJoinRows st recordIds m).mp h2.1,
      ((msgKeep_iff threshold m).mp h2.2).1, ((msgKeep_iff threshold m).mp h2.2).2⟩
  · exact List.Pairwise.sublist (List.take_sublist _ _) (List.sorted_insertionSort _ _)
  · exact List.length_take_le _ _
  · intro hsmall m hm hjoin hth htext
    have hfull : fetchConvMessages st recordIds threshold lim =
        List.insertionSort dateDesc ((convJoinRows st recordIds).filter (msgKeep threshold)) := by
      unfold fetchConvMessages
      exact List.take_of_length_le (by rw [List.length_insertionSort]; exact hsmall)
    rw [hfull, List.mem_insertionSort, List.mem_filter]
    refine ⟨(mem_convJoinRows st recordIds m).mpr ?_,
      (msgKeep_iff threshold m).mpr ⟨hth, htext⟩⟩
    rcases hjoin with ⟨j, hj, hc, hr⟩
    exact ⟨j, hj, hc, hm, hr⟩
  · intro r hr
    have h1 : r ∈ (recentRows st).filter (rowKeep threshold) := mem_of_mem_sortTake hr
    have h2 := List.mem_filter.mp h1
    exact ⟨msg_mem_of_mem_recentRows st r h2.1,
      ((msgKeep_iff threshold r.msg).mp h2.2).1, ((msgKeep_iff threshold r.msg).mp h2.2).2⟩
  · exact List.Pairwise.sublist (List.take_sublist _ _) (List.sorted_insertionSort _ _)
  · exact List.length_take_le _ _
  · have hth : getAppleTimestamp c9now ((24 : ℚ) / 24) =
        (((781606400000000000 : Int) : ℚ)) := by
      norm_num [getAppleTimestamp, appleEpoch, c9now]
    simp only [getRecentMessages, hth]
    decide

def c9wstore : Store :=
  { chats := [⟨7, none, "g", "iMessage", some "G1"⟩]
    handles := []
    messages := [⟨100, 5, some "hi", false, none, "iMessage"⟩]
    chat_handle_join := []
    chat_message_join := [⟨7, 100⟩] }

/-- C9 witness: the completeness conjunct applied at a concrete store — the
single qualifying joined message is returned. -/
theorem c9_witness :
    (⟨100, 5, some "hi", false, none, "iMessage"⟩ : Message) ∈
      fetchConvMessages c9wstore [7] 0 50 := by
  have h := (c9_retrieval c9wstore [7] 0 50).2.2.2.1
  exact h (by decide) (⟨100, 5, some "hi", false, none, "iMessage"⟩ : Message) (by decide)
    ⟨⟨7, 100⟩, by decide, by decide, by decide⟩ (by decide) (by decide)

end IMsg
